import Mathlib

/- Shallow embedding of src/src/alert-pcap.c, the alert-triggered pcap output
   module.  Pure computations are modelled directly; the shared mutable cache
   (AlertPcapLogData) is threaded as explicit state through the per-packet
   driver.  Machine integers whose overflow is unreachable on the states the
   claims range over are modelled as Nat; time values (struct timeval tv_sec,
   a signed integer) are modelled as Int. -/

namespace AlertPcap

/-- One record written through pcap_dump: the struct pcap_pkthdr fields
(timestamp seconds, captured length, original length) plus the payload,
identified by a natural number. -/
structure Record where
  ts : Int
  caplen : Nat
  len : Nat
  data : Nat
deriving DecidableEq

/-- TimeMachinePacket as read by the drain loop at lines 290-296 of
alert-pcap.c: a stored pcap header plus the payload. -/
structure TMPacket where
  ts : Int
  caplen : Nat
  len : Nat
  data : Nat
deriving DecidableEq

/-- The record written by `pcap_dump(output, &packet->header, packet->data)`
at line 292 for a buffered packet. -/
def TMPacket.toRecord (tp : TMPacket) : Record :=
  { ts := tp.ts, caplen := tp.caplen, len := tp.len, data := tp.data }

/-- The fields of the pipeline Packet that AlertPcapLogProcess reads:
`p->datalink` (line 176), `p->ts` (lines 303-304), GET_PKT_LEN and
GET_PKT_DATA (lines 305-311). -/
structure Packet where
  datalink : Nat
  ts : Int
  len : Nat
  data : Nat
deriving DecidableEq

/-- The record built at lines 302-311: pkthdr.ts from p.ts, caplen and len
both GET_PKT_LEN(p), payload GET_PKT_DATA(p). -/
def Packet.toRecord (p : Packet) : Record :=
  { ts := p.ts, caplen := p.len, len := p.len, data := p.data }

/-- The fields of the external Flow that AlertPcapLogProcess reads.
`startts_str` is the rendering CreateIsoTimeString produces from
flow->startts (line 230); `srcip`/`dstip` are the PrintInet renderings
(lines 232-238); `proto_name` models the external protocol-name table
(SCProtoNameValid / known_proto, lines 240-241): `some s` when the protocol
id is registered with name s, `none` otherwise.  `tm_pkts` (head = oldest)
and `tm_pkt_cnt` are the TimeMachine buffer fields drained at lines
288-297. -/
structure Flow where
  startts_str : String
  srcip : String
  dstip : String
  sp : Nat
  dp : Nat
  proto : Nat
  proto_name : Option String
  tm_pkts : List TMPacket
  tm_pkt_cnt : Nat
deriving DecidableEq

/-- AlertPcapFile (lines 53-61).  `writerId` models the identity of the
open pcap writer handle (pcap_file / pcap_writer / output_file triple): a
fresh creation gets a fresh id, so reopening is observable.  `records` is
the sequence of records written through the writer so far.  `updated` is
the tv_sec of the `updated` timeval.  In the C source `updated` is
uninitialized at creation (SCMalloc) and first written at line 314 before
any read; the model initializes it to 0, which no reachable read observes
before line 314 overwrites it. -/
structure AlertPcapFile where
  filename : String
  datalink : Nat
  writerId : Nat
  records : List Record
  updated : Int
deriving DecidableEq

/-- AlertPcapLogData (lines 67-75).  `pcap_files` is the TAILQ, head =
oldest-used, tail = most-recently-used.  `current_file` is the hint
pointer; the model stores the pointed-to node value, with node identity
recoverable through `filename` (unique, see the claims on invariant I1)
and `writerId`.  `next_writer` is a model-level counter issuing fresh
writer-handle identities. -/
structure AlertPcapLogData where
  directory : String
  timeout : Nat
  current_file : Option AlertPcapFile
  pcap_file_count : Nat
  pcap_files : List AlertPcapFile
  next_writer : Nat
deriving DecidableEq

def PATH_MAX : Nat := 4096

def DEFAULT_DIRECTORY_NAME : String := "alert"

def DEFAULT_FILE_TIMEOUT : Nat := 300

def IPPROTO_ICMP : Nat := 1

/-- Truncation of a string to its first n characters, on the underlying
character list. -/
def strTake (s : String) (n : Nat) : String :=
  String.mk (s.data.take n)

/-- Semantics of `snprintf(dst, size, "%s", src)`: with size 0 nothing is
written and dst is unchanged; otherwise at most size-1 characters of src
are stored. -/
def snprintfStr (dst : String) (size : Nat) (src : String) : String :=
  if size = 0 then dst else strTake src (size - 1)

/-- The protocol string computed at lines 240-244: the registered name
(strlcpy into a 16-byte buffer, so at most 15 characters), else the
"%03u" rendering of the protocol id (snprintf into the same buffer). -/
def protoString (f : Flow) : String :=
  match f.proto_name with
  | some s => strTake s 15
  | none =>
      let s := toString f.proto
      strTake (if s.length < 3 then String.mk (List.replicate (3 - s.length) '0') ++ s else s) 15

/-- The directory computed at lines 246-247:
`"%s/%.10s/%s-%s"` of (root, timebuf, srcip, dstip), truncated by snprintf
to PATH_MAX-1 characters. -/
def flowDirectory (root : String) (f : Flow) : String :=
  strTake (root ++ "/" ++ strTake f.startts_str 10 ++ "/" ++ f.srcip ++ "-" ++ f.dstip)
    (PATH_MAX - 1)

/-- The filename computed at lines 249-255: the ICMP form
`"%s/%s-%s-%s.ICMP.pcap"` for protocol ICMP, else
`"%s/%s:%hu-%s:%hu-%s.%s.pcap"`, truncated to PATH_MAX-1 characters. -/
def flowFilename (root : String) (f : Flow) : String :=
  let dir := flowDirectory root f
  if f.proto = IPPROTO_ICMP then
    strTake (dir ++ "/" ++ f.srcip ++ "-" ++ f.dstip ++ "-" ++ f.startts_str ++ ".ICMP.pcap")
      (PATH_MAX - 1)
  else
    strTake (dir ++ "/" ++ f.srcip ++ ":" ++ toString f.sp ++ "-" ++ f.dstip ++ ":"
      ++ toString f.dp ++ "-" ++ f.startts_str ++ "." ++ protoString f ++ ".pcap")
      (PATH_MAX - 1)

/-- Outcomes of the environment-dependent steps inside AlertPcapFileNew
(lines 142-192): the two SCMalloc / SCCalloc calls, the stat + MakePath
step, pcap_open_dead and pcap_dump_open.  `ok` covers the all-success run
(the directory already existed or stat failed and MakePath succeeded);
`mkdirEExist` is the tolerated MakePath failure with errno EEXIST (lines
162-169); the remaining constructors are the failure returns. -/
inductive FsEnv where
  | ok
  | mkdirEExist
  | mallocFail
  | callocFail
  | mkdirFail
  | pcapOpenFail
  | dumpOpenFail
deriving DecidableEq

/-- AlertPcapFileNew (lines 142-192).  On any failure path the function
returns NULL having touched no cache state (the allocations it leaks are
outside the model).  On success it returns a fresh file bound to the
datalink of the triggering packet, with an empty writer.  `wid` is the
fresh writer-handle identity the model assigns. -/
def AlertPcapFileNew (filename : String) (p : Packet) (env : FsEnv) (wid : Nat) :
    Option AlertPcapFile :=
  match env with
  | .mallocFail => none
  | .callocFail => none
  | .mkdirFail => none
  | .pcapOpenFail => none
  | .dumpOpenFail => none
  | _ => some { filename := filename
                datalink := p.datalink
                writerId := wid
                records := []
                updated := 0 }

/-- The TAILQ_FOREACH scan at lines 263-270: find the first entry whose
filename matches, remove it from its position and re-append it at the
tail, and return the new list together with the entry; `none` when the
loop falls off the end (the C loop variable is then NULL). -/
def scanPromote (filename : String) : List AlertPcapFile →
    Option (List AlertPcapFile × AlertPcapFile)
  | [] => none
  | f :: fs =>
    if f.filename = filename then some (fs ++ [f], f)
    else
      match scanPromote filename fs with
      | some (fs', hit) => some (f :: fs', hit)
      | none => none

/-- The lookup part of lines 259-271 of AlertPcapLogProcess: compare the
hint by filename (line 262), else scan with promotion to the tail (lines
263-270); `none` when the loop falls off the end and the local
current_file is NULL. -/
def lookupHit (apl : AlertPcapLogData) (filename : String) :
    Option (AlertPcapLogData × AlertPcapFile) :=
  match apl.current_file with
  | some cf =>
    if cf.filename = filename then some (apl, cf)
    else
      match scanPromote filename apl.pcap_files with
      | some (fs', hitf) =>
          some ({ apl with pcap_files := fs', current_file := some hitf }, hitf)
      | none => none
  | none =>
    match scanPromote filename apl.pcap_files with
    | some (fs', hitf) =>
        some ({ apl with pcap_files := fs', current_file := some hitf }, hitf)
    | none => none

/-- Lines 259-286 of AlertPcapLogProcess: the lookup-or-create portion run
under the cache lock.  After the lookup stage, an unresolved filename
leads to creation (lines 274-285): on creation failure the caller gets
`none` (the TM_ECODE_FAILED path) and the state is untouched; on success
the new file is appended at the tail, the hint is set to it and
pcap_file_count is incremented. -/
def resolveOrCreate (apl : AlertPcapLogData) (filename : String) (p : Packet) (env : FsEnv) :
    Option (AlertPcapLogData × AlertPcapFile) :=
  match lookupHit apl filename with
  | some r => some r
  | none =>
    match AlertPcapFileNew filename p env apl.next_writer with
    | none => none
    | some nf =>
        some ({ apl with
                pcap_files := apl.pcap_files ++ [nf]
                current_file := some nf
                pcap_file_count := apl.pcap_file_count + 1
                next_writer := apl.next_writer + 1 }, nf)

/-- The drain loop at lines 290-296: while tm_pkt_cnt > 0, pop the first
buffered packet, dump it to the writer, and decrement the counter.
Returns (final tm_pkt_cnt, remaining buffer, records written in order).
The `n+1, []` case is where the C code would dereference a NULL
TAILQ_FIRST; it is unreachable whenever tm_pkt_cnt equals the buffer
length, and the model simply stops there. -/
def drainLoop : Nat → List TMPacket → Nat × List TMPacket × List Record
  | 0, pkts => (0, pkts, [])
  | n + 1, [] => (n + 1, [], [])
  | n + 1, tp :: pkts =>
      let r := drainLoop n pkts
      (r.1, r.2.1, tp.toRecord :: r.2.2)

/-- In-place mutation of the list node aliased by `current_file`: the C
code updates the node through the pointer (lines 292, 311-314), which the
value-level model renders as replacing every list element carrying the
node key (its filename; unique under invariant I1) by the updated
value. -/
def updateFile (fs : List AlertPcapFile) (cf : AlertPcapFile) : List AlertPcapFile :=
  fs.map (fun f => if f.filename = cf.filename then cf else f)

/-- The eviction walk at lines 317-330, as a function of the list: starting
from the head, an entry with `now - updated < timeout` stops the walk
(line 320-322); otherwise the entry is removed, closed and freed.  Returns
(remaining entries, removed-and-closed entries in removal order).  The C
loop advances through the just-freed node (TAILQ_FOREACH after
TAILQ_REMOVE + SCFree); the model renders the logical traversal that code
performs. -/
def evictLoop (timeout : Nat) (now : Int) : List AlertPcapFile →
    List AlertPcapFile × List AlertPcapFile
  | [] => ([], [])
  | f :: fs =>
    if now - f.updated < (timeout : Int) then (f :: fs, [])
    else
      let r := evictLoop timeout now fs
      (r.1, f :: r.2)

/-- The state effect of lines 316-330: run the eviction walk; for each
removed entry pcap_file_count is decremented and current_file is set to
NULL (lines 328-329 execute once per removed entry, whether or not the
removed entry is the hinted one). -/
def evictSweep (apl : AlertPcapLogData) (now : Int) : AlertPcapLogData :=
  let r := evictLoop apl.timeout now apl.pcap_files
  { apl with
    pcap_files := r.1
    pcap_file_count := apl.pcap_file_count - r.2.length
    current_file := if r.2.isEmpty then apl.current_file else none }

inductive TmEcode where
  | ok
  | failed
deriving DecidableEq

/-- Result of one AlertPcapLogProcess call: the return code, the cache
state, the flow state, and the final value of the file written this call
(`none` on the failure return).  The last component records the on-disk
artifact the call produced and is how the model observes writes that
survive a later eviction of the cache entry. -/
structure ProcessResult where
  ecode : TmEcode
  apl : AlertPcapLogData
  flow : Flow
  written : Option AlertPcapFile
deriving DecidableEq

/-- AlertPcapLogProcess (lines 223-334).  The filename is computed from the
flow identity (lines 230-255); the file is resolved or created under the
cache lock (lines 257-286), with TM_ECODE_FAILED and untouched state on
creation failure (lines 277-281); the TimeMachine buffer is drained into
the writer unconditionally (lines 288-297 carry no created/reused test);
the current packet is dumped and flushed and `updated` is set to now
(lines 302-314), mutating the node aliased by both the list and the hint;
finally the eviction sweep runs (lines 316-330) and TM_ECODE_OK is
returned. -/
def AlertPcapLogProcess (apl : AlertPcapLogData) (flow : Flow) (p : Packet) (env : FsEnv)
    (now : Int) : ProcessResult :=
  let filename := flowFilename apl.directory flow
  match resolveOrCreate apl filename p env with
  | none => ⟨.failed, apl, flow, none⟩
  | some (apl1, cf) =>
      let d := drainLoop flow.tm_pkt_cnt flow.tm_pkts
      let flow' := { flow with tm_pkt_cnt := d.1, tm_pkts := d.2.1 }
      let cf' := { cf with records := cf.records ++ d.2.2 ++ [p.toRecord], updated := now }
      let apl2 := { apl1 with
                    pcap_files := updateFile apl1.pcap_files cf'
                    current_file := some cf' }
      ⟨.ok, evictSweep apl2 now, flow', some cf'⟩

/-- Configuration input of AlertPcapLogInitCtx.  `directory` is the value
of the "directory" child node when present.  `timeout_raw` models the
"timeout" child together with the external ByteExtractStringUint32 parse:
`none` = child absent, `some none` = present but unparsable, `some (some
v)` = parsed to the uint32 v. -/
structure ConfNode where
  directory : Option String
  timeout_raw : Option (Option Nat)
deriving DecidableEq

/-- Modelled from the spec: util-path.c is not part of the sources given;
per the external-interface description a path is absolute when it starts
at the filesystem root. -/
def PathIsAbsolute (s : String) : Bool :=
  match s.data with
  | [] => false
  | c :: _ => c = '/'

/-- AlertPcapLogInitCtx (lines 376-446).  The struct is zeroed (line 384),
so at line 396 `strlen(apl->directory)` is 0 and the snprintf for an
absolute configured directory writes nothing; the relative branch uses
sizeof and joins the log root with the configured name (lines 398-404).
Timeout parsing: absent child gives the default, an unparsable or
below-minimum value calls exit(EXIT_FAILURE), modelled as `none`.  With a
NULL conf the whole block is skipped and the zeroed fields stand. -/
def AlertPcapLogInitCtx (conf : Option ConfNode) (log_dir : String) :
    Option AlertPcapLogData :=
  let apl0 : AlertPcapLogData :=
    { directory := ""
      timeout := 0
      current_file := none
      pcap_file_count := 0
      pcap_files := []
      next_writer := 0 }
  match conf with
  | none => some apl0
  | some c =>
    let s_dir := c.directory.getD DEFAULT_DIRECTORY_NAME
    let dir :=
      if PathIsAbsolute s_dir then
        snprintfStr apl0.directory apl0.directory.length s_dir
      else
        snprintfStr apl0.directory PATH_MAX (log_dir ++ "/" ++ s_dir)
    match c.timeout_raw with
    | none => some { apl0 with directory := dir, timeout := DEFAULT_FILE_TIMEOUT }
    | some none => none
    | some (some v) =>
        if v < 1 then none
        else some { apl0 with directory := dir, timeout := v }

/-- The teardown loop of AlertPcapLogDeInitCtx (lines 459-465): while
pcap_file_count > 0, remove the head entry, close and free it, and
decrement the count.  Returns (final count, remaining entries).  The
`n+1, []` case is where the C code would TAILQ_REMOVE a NULL first
element; it is unreachable under invariant I2 and the model stops
there. -/
def deInitLoop : Nat → List AlertPcapFile → Nat × List AlertPcapFile
  | 0, fs => (0, fs)
  | n + 1, [] => (n + 1, [])
  | n + 1, _ :: fs => deInitLoop n fs

/-- AlertPcapLogDeInitCtx (lines 452-469), restricted to its cache
bookkeeping: the final (pcap_file_count, pcap_files) pair after the
teardown loop. -/
def AlertPcapLogDeInitCtx (apl : AlertPcapLogData) : Nat × List AlertPcapFile :=
  deInitLoop apl.pcap_file_count apl.pcap_files

/-- Driving a sequence of packets through AlertPcapLogProcess, keeping the
cache state: each step supplies the flow state, the packet, the
environment outcome for a potential creation, and the current time. -/
def processSeq (apl : AlertPcapLogData) : List (Flow × Packet × FsEnv × Int) →
    AlertPcapLogData
  | [] => apl
  | (f, p, e, n) :: rest => processSeq (AlertPcapLogProcess apl f p e n).apl rest

/-- The hint validity invariant: current_file is NULL or is the tail
(most-recently-used) entry of pcap_files. -/
def hintIsTail (apl : AlertPcapLogData) : Prop :=
  apl.current_file = none ∨ apl.current_file = apl.pcap_files.getLast?

instance (apl : AlertPcapLogData) : Decidable (hintIsTail apl) := by
  unfold hintIsTail
  infer_instance

/-- Invariant I1: the filenames held in the cache are pairwise distinct. -/
def pathsNodup (apl : AlertPcapLogData) : Prop :=
  (apl.pcap_files.map (fun f => f.filename)).Nodup

/-- Invariant I2: pcap_file_count equals the number of cache entries. -/
def countEq (apl : AlertPcapLogData) : Prop :=
  apl.pcap_file_count = apl.pcap_files.length

theorem scanPromote_eq_none {fn : String} {fs : List AlertPcapFile}
    (h : scanPromote fn fs = none) : ∀ f ∈ fs, f.filename ≠ fn := by
  induction fs with
  | nil => intro f hf; exact absurd hf (List.not_mem_nil f)
  | cons g gs ih =>
    intro f hf
    simp only [scanPromote] at h
    by_cases hg : g.filename = fn
    · simp [hg] at h
    · simp only [if_neg hg] at h
      cases hs : scanPromote fn gs with
      | some r => rw [hs] at h; exact absurd h (by simp)
      | none =>
        rcases List.mem_cons.mp hf with rfl | hf'
        · exact hg
        · exact ih hs f hf'

theorem scanPromote_of_not_mem {fn : String} {fs : List AlertPcapFile}
    (h : ∀ f ∈ fs, f.filename ≠ fn) : scanPromote fn fs = none := by
  induction fs with
  | nil => rfl
  | cons g gs ih =>
    have hg : g.filename ≠ fn := h g (List.mem_cons_self g gs)
    simp only [scanPromote, if_neg hg]
    rw [ih (fun f hf => h f (List.mem_cons_of_mem g hf))]

theorem scanPromote_eq_some {fn : String} {fs fs' : List AlertPcapFile} {cf : AlertPcapFile}
    (h : scanPromote fn fs = some (fs', cf)) :
    cf.filename = fn ∧ ∃ l1 l2, fs = l1 ++ cf :: l2 ∧ fs' = (l1 ++ l2) ++ [cf] := by
  induction fs generalizing fs' with
  | nil => exact absurd h (by simp [scanPromote])
  | cons g gs ih =>
    simp only [scanPromote] at h
    by_cases hg : g.filename = fn
    · rw [if_pos hg] at h
      obtain ⟨h1, h2⟩ := Prod.mk.injEq .. ▸ Option.some.inj h
      subst h1; subst h2
      exact ⟨hg, [], gs, rfl, rfl⟩
    · rw [if_neg hg] at h
      cases hs : scanPromote fn gs with
      | none => rw [hs] at h; exact absurd h (by simp)
      | some r =>
        obtain ⟨gs', hit⟩ := r
        rw [hs] at h
        obtain ⟨h1, h2⟩ := Prod.mk.injEq .. ▸ Option.some.inj h
        subst h2
        obtain ⟨hfn, l1, l2, hgs, hgs'⟩ := ih hs
        refine ⟨hfn, g :: l1, l2, by rw [hgs]; rfl, ?_⟩
        rw [← h1, hgs']
        rfl

theorem scanPromote_perm {fn : String} {fs fs' : List AlertPcapFile} {cf : AlertPcapFile}
    (h : scanPromote fn fs = some (fs', cf)) : List.Perm fs' fs := by
  obtain ⟨-, l1, l2, rfl, rfl⟩ := scanPromote_eq_some h
  exact ((List.perm_append_singleton cf (l1 ++ l2)).trans List.perm_middle.symm)

theorem scanPromote_getLast {fn : String} {fs fs' : List AlertPcapFile} {cf : AlertPcapFile}
    (h : scanPromote fn fs = some (fs', cf)) : fs'.getLast? = some cf := by
  obtain ⟨-, l1, l2, -, rfl⟩ := scanPromote_eq_some h
  rw [List.getLast?_concat]

theorem drainLoop_full (pkts : List TMPacket) :
    drainLoop pkts.length pkts = (0, [], pkts.map TMPacket.toRecord) := by
  induction pkts with
  | nil => rfl
  | cons tp pkts ih => simp only [List.length_cons, drainLoop, ih, List.map_cons]

theorem updateFile_map_filename (fs : List AlertPcapFile) (cf : AlertPcapFile) :
    (updateFile fs cf).map (fun f => f.filename) = fs.map (fun f => f.filename) := by
  induction fs with
  | nil => rfl
  | cons g gs ih =>
    simp only [updateFile, List.map_cons] at *
    by_cases hg : g.filename = cf.filename
    · simp [hg, ih]
    · simp only [if_neg hg, ih]

theorem updateFile_length (fs : List AlertPcapFile) (cf : AlertPcapFile) :
    (updateFile fs cf).length = fs.length := by
  simp [updateFile]

theorem updateFile_getLast (cf : AlertPcapFile) {fs : List AlertPcapFile} {lastf : AlertPcapFile}
    (h : fs.getLast? = some lastf) (hfn : lastf.filename = cf.filename) :
    (updateFile fs cf).getLast? = some cf := by
  induction fs with
  | nil => exact absurd h (by simp)
  | cons g gs ih =>
    cases gs with
    | nil =>
      obtain rfl : g = lastf := by simpa using h
      simp [updateFile, if_pos hfn]
    | cons g2 gs2 =>
      rw [List.getLast?_cons_cons] at h
      have := ih h
      simp only [updateFile, List.map_cons] at this ⊢
      rw [List.getLast?_cons_cons]
      exact this

theorem evictLoop_append (t : Nat) (now : Int) (fs : List AlertPcapFile) :
    (evictLoop t now fs).2 ++ (evictLoop t now fs).1 = fs := by
  induction fs with
  | nil => rfl
  | cons f fs ih =>
    simp only [evictLoop]
    by_cases hfr : now - f.updated < (t : Int)
    · simp [hfr]
    · simp only [if_neg hfr, List.cons_append, ih]

theorem evictLoop_snd_nil {t : Nat} {now : Int} {fs : List AlertPcapFile}
    (h : (evictLoop t now fs).2 = []) : (evictLoop t now fs).1 = fs := by
  cases fs with
  | nil => rfl
  | cons f fs =>
    simp only [evictLoop] at h ⊢
    by_cases hfr : now - f.updated < (t : Int)
    · simp [hfr]
    · simp [hfr] at h

theorem AlertPcapFileNew_eq_some {fn : String} {p : Packet} {env : FsEnv} {wid : Nat}
    {cf : AlertPcapFile} (h : AlertPcapFileNew fn p env wid = some cf) :
    cf = { filename := fn, datalink := p.datalink, writerId := wid
           records := [], updated := 0 } := by
  cases env <;> simp [AlertPcapFileNew] at h <;> exact h.symm

theorem mem_of_getLast?_eq {α : Type} {l : List α} {a : α} (h : l.getLast? = some a) :
    a ∈ l := by
  have hx : a ∈ l.getLast? := by rw [h]; rfl
  obtain ⟨hne, rfl⟩ := List.mem_getLast?_eq_getLast hx
  exact List.getLast_mem hne

/-- Characterization of the lookup stage: a hit is either the hint fast
path (state untouched) or a scan hit with promotion. -/
theorem lookupHit_cases {apl : AlertPcapLogData} {fn : String}
    {apl1 : AlertPcapLogData} {cf : AlertPcapFile}
    (h : lookupHit apl fn = some (apl1, cf)) :
    (apl1 = apl ∧ apl.current_file = some cf ∧ cf.filename = fn) ∨
    (∃ fs', scanPromote fn apl.pcap_files = some (fs', cf) ∧
       apl1 = { apl with pcap_files := fs', current_file := some cf }) := by
  unfold lookupHit at h
  cases hh : apl.current_file with
  | some cf0 =>
    simp only [hh] at h
    by_cases hname : cf0.filename = fn
    · rw [if_pos hname] at h
      obtain ⟨h1, h2⟩ := Prod.mk.injEq .. ▸ Option.some.inj h
      subst h2
      exact Or.inl ⟨h1.symm, rfl, hname⟩
    · rw [if_neg hname] at h
      cases hs : scanPromote fn apl.pcap_files with
      | none => rw [hs] at h; exact absurd h (by simp)
      | some r =>
        obtain ⟨fs', hitf⟩ := r
        rw [hs] at h
        obtain ⟨h1, h2⟩ := Prod.mk.injEq .. ▸ Option.some.inj h
        subst h2
        exact Or.inr ⟨fs', rfl, h1.symm⟩
  | none =>
    simp only [hh] at h
    cases hs : scanPromote fn apl.pcap_files with
    | none => rw [hs] at h; exact absurd h (by simp)
    | some r =>
      obtain ⟨fs', hitf⟩ := r
      rw [hs] at h
      obtain ⟨h1, h2⟩ := Prod.mk.injEq .. ▸ Option.some.inj h
      subst h2
      exact Or.inr ⟨fs', rfl, h1.symm⟩

/-- When the hint is valid (null or the tail entry) and no cache entry
carries the filename, the lookup stage finds nothing. -/
theorem lookupHit_eq_none {apl : AlertPcapLogData} {fn : String}
    (hinv : hintIsTail apl) (hmiss : ∀ f ∈ apl.pcap_files, f.filename ≠ fn) :
    lookupHit apl fn = none := by
  unfold lookupHit
  cases hh : apl.current_file with
  | none => simp only [scanPromote_of_not_mem hmiss]
  | some cf0 =>
    have hcf0 : cf0 ∈ apl.pcap_files := by
      rcases hinv with h0 | h0
      · rw [hh] at h0; exact absurd h0 (by simp)
      · rw [hh] at h0; exact mem_of_getLast?_eq h0.symm
    simp only [if_neg (hmiss cf0 hcf0), scanPromote_of_not_mem hmiss]

/-- Characterization of the lookup-or-create step: a successful call went
through exactly one of the hint fast path, the scan-with-promotion, or the
creation of a fresh entry. -/
theorem resolveOrCreate_cases {apl : AlertPcapLogData} {fn : String} {p : Packet} {env : FsEnv}
    {apl1 : AlertPcapLogData} {cf : AlertPcapFile}
    (h : resolveOrCreate apl fn p env = some (apl1, cf)) :
    (apl1 = apl ∧ apl.current_file = some cf ∧ cf.filename = fn) ∨
    (∃ fs', scanPromote fn apl.pcap_files = some (fs', cf) ∧
       apl1 = { apl with pcap_files := fs', current_file := some cf }) ∨
    (scanPromote fn apl.pcap_files = none ∧
       AlertPcapFileNew fn p env apl.next_writer = some cf ∧
       apl1 = { apl with
                pcap_files := apl.pcap_files ++ [cf]
                current_file := some cf
                pcap_file_count := apl.pcap_file_count + 1
                next_writer := apl.next_writer + 1 }) := by
  unfold resolveOrCreate at h
  cases hl : lookupHit apl fn with
  | some r =>
    obtain ⟨a1, c1⟩ := r
    rw [hl] at h
    obtain ⟨h1, h2⟩ := Prod.mk.injEq .. ▸ Option.some.inj h
    subst h1; subst h2
    rcases lookupHit_cases hl with h' | h'
    · exact Or.inl h'
    · exact Or.inr (Or.inl h')
  | none =>
    rw [hl] at h
    cases hnew : AlertPcapFileNew fn p env apl.next_writer with
    | none => rw [hnew] at h; exact absurd h (by simp)
    | some nf =>
      rw [hnew] at h
      obtain ⟨h1, h2⟩ := Prod.mk.injEq .. ▸ Option.some.inj h
      subst h2
      have hscan : scanPromote fn apl.pcap_files = none := by
        unfold lookupHit at hl
        cases hh : apl.current_file with
        | none =>
          simp only [hh] at hl
          cases hs : scanPromote fn apl.pcap_files with
          | none => rfl
          | some r => obtain ⟨a, b⟩ := r; rw [hs] at hl; exact absurd hl (by simp)
        | some cf0 =>
          simp only [hh] at hl
          by_cases hname : cf0.filename = fn
          · rw [if_pos hname] at hl; exact absurd hl (by simp)
          · rw [if_neg hname] at hl
            cases hs : scanPromote fn apl.pcap_files with
            | none => rfl
            | some r => obtain ⟨a, b⟩ := r; rw [hs] at hl; exact absurd hl (by simp)
      exact Or.inr (Or.inr ⟨hscan, rfl, h1.symm⟩)

theorem resolveOrCreate_countEq {apl : AlertPcapLogData} {fn : String} {p : Packet}
    {env : FsEnv} {apl1 : AlertPcapLogData} {cf : AlertPcapFile}
    (h : resolveOrCreate apl fn p env = some (apl1, cf)) (hc : countEq apl) : countEq apl1 := by
  rcases resolveOrCreate_cases h with ⟨rfl, -, -⟩ | ⟨fs', hs, rfl⟩ | ⟨-, -, rfl⟩
  · exact hc
  · unfold countEq at *
    simp only
    rw [(scanPromote_perm hs).length_eq]
    exact hc
  · unfold countEq at *
    simp [hc]

theorem resolveOrCreate_nodup {apl : AlertPcapLogData} {fn : String} {p : Packet}
    {env : FsEnv} {apl1 : AlertPcapLogData} {cf : AlertPcapFile}
    (h : resolveOrCreate apl fn p env = some (apl1, cf)) (hn : pathsNodup apl) :
    pathsNodup apl1 := by
  rcases resolveOrCreate_cases h with ⟨rfl, -, -⟩ | ⟨fs', hs, rfl⟩ | ⟨hscan, hnew, rfl⟩
  · exact hn
  · unfold pathsNodup at *
    exact (((scanPromote_perm hs).map (fun f => f.filename)).nodup_iff).mpr hn
  · unfold pathsNodup at *
    simp only [List.map_append]
    have hcf : cf.filename = fn := by rw [AlertPcapFileNew_eq_some hnew]
    have hnot : cf.filename ∉ apl.pcap_files.map (fun f => f.filename) := by
      rw [hcf]
      intro hmem
      obtain ⟨f, hf, hfn⟩ := List.mem_map.mp hmem
      exact scanPromote_eq_none hscan f hf hfn
    rw [List.map_singleton, List.nodup_append]
    exact ⟨hn, List.nodup_singleton _,
      fun a ha hb => hnot (List.mem_singleton.mp hb ▸ ha)⟩

theorem resolveOrCreate_tail {apl : AlertPcapLogData} {fn : String} {p : Packet}
    {env : FsEnv} {apl1 : AlertPcapLogData} {cf : AlertPcapFile}
    (hinv : hintIsTail apl) (h : resolveOrCreate apl fn p env = some (apl1, cf)) :
    apl1.current_file = some cf ∧ apl1.pcap_files.getLast? = some cf := by
  rcases resolveOrCreate_cases h with ⟨rfl, hcf, -⟩ | ⟨fs', hs, rfl⟩ | ⟨-, -, rfl⟩
  · refine ⟨hcf, ?_⟩
    rcases hinv with h0 | h0
    · rw [hcf] at h0; exact absurd h0 (by simp)
    · rw [← h0, hcf]
  · exact ⟨rfl, scanPromote_getLast hs⟩
  · exact ⟨rfl, by simp only; rw [List.getLast?_concat]⟩

theorem evictSweep_countEq {apl : AlertPcapLogData} {now : Int} (hc : countEq apl) :
    countEq (evictSweep apl now) := by
  unfold evictSweep countEq at *
  simp only
  have happ := evictLoop_append apl.timeout now apl.pcap_files
  have hlen : (evictLoop apl.timeout now apl.pcap_files).2.length +
      (evictLoop apl.timeout now apl.pcap_files).1.length = apl.pcap_files.length := by
    rw [← List.length_append, happ]
  omega

theorem evictSweep_nodup {apl : AlertPcapLogData} {now : Int} (hn : pathsNodup apl) :
    pathsNodup (evictSweep apl now) := by
  unfold evictSweep pathsNodup at *
  simp only
  have happ := evictLoop_append apl.timeout now apl.pcap_files
  have hsub : List.Sublist (evictLoop apl.timeout now apl.pcap_files).1 apl.pcap_files :=
    List.IsSuffix.sublist ⟨(evictLoop apl.timeout now apl.pcap_files).2, happ⟩
  exact hn.sublist (hsub.map (fun f => f.filename))

theorem evictSweep_hintIsTail {apl : AlertPcapLogData} {now : Int} (hinv : hintIsTail apl) :
    hintIsTail (evictSweep apl now) := by
  unfold evictSweep hintIsTail at *
  simp only
  cases hemp : (evictLoop apl.timeout now apl.pcap_files).2 with
  | nil =>
    have h1 := evictLoop_snd_nil hemp
    simp only [hemp, List.isEmpty_nil, if_pos rfl, h1]
    exact hinv
  | cons a l =>
    simp [hemp]

/-- The final value of the file written by a successful AlertPcapLogProcess
call: the drained records and the current packet appended to the writer,
and `updated` set to now (lines 288-314). -/
def procFile (cf : AlertPcapFile) (flow : Flow) (p : Packet) (now : Int) : AlertPcapFile :=
  { cf with records := cf.records ++ (drainLoop flow.tm_pkt_cnt flow.tm_pkts).2.2 ++ [p.toRecord]
            updated := now }

theorem process_eq_none {apl : AlertPcapLogData} {flow : Flow} {p : Packet} {env : FsEnv}
    (now : Int) (h : resolveOrCreate apl (flowFilename apl.directory flow) p env = none) :
    AlertPcapLogProcess apl flow p env now = ⟨.failed, apl, flow, none⟩ := by
  simp only [AlertPcapLogProcess, h]

theorem process_eq_some {apl : AlertPcapLogData} {flow : Flow} {p : Packet} {env : FsEnv}
    {apl1 : AlertPcapLogData} {cf : AlertPcapFile} (now : Int)
    (h : resolveOrCreate apl (flowFilename apl.directory flow) p env = some (apl1, cf)) :
    AlertPcapLogProcess apl flow p env now =
      ⟨.ok,
       evictSweep { apl1 with
                    pcap_files := updateFile apl1.pcap_files (procFile cf flow p now)
                    current_file := some (procFile cf flow p now) } now,
       { flow with tm_pkt_cnt := (drainLoop flow.tm_pkt_cnt flow.tm_pkts).1
                   tm_pkts := (drainLoop flow.tm_pkt_cnt flow.tm_pkts).2.1 },
       some (procFile cf flow p now)⟩ := by
  simp only [AlertPcapLogProcess, h, procFile]

theorem process_countEq {apl : AlertPcapLogData} {flow : Flow} {p : Packet} {env : FsEnv}
    {now : Int} (hc : countEq apl) :
    countEq (AlertPcapLogProcess apl flow p env now).apl := by
  cases hres : resolveOrCreate apl (flowFilename apl.directory flow) p env with
  | none => rw [process_eq_none now hres]; exact hc
  | some r =>
    obtain ⟨apl1, cf⟩ := r
    rw [process_eq_some now hres]
    apply evictSweep_countEq
    unfold countEq
    simp only
    rw [updateFile_length]
    exact resolveOrCreate_countEq hres hc

theorem process_nodup {apl : AlertPcapLogData} {flow : Flow} {p : Packet} {env : FsEnv}
    {now : Int} (hn : pathsNodup apl) :
    pathsNodup (AlertPcapLogProcess apl flow p env now).apl := by
  cases hres : resolveOrCreate apl (flowFilename apl.directory flow) p env with
  | none => rw [process_eq_none now hres]; exact hn
  | some r =>
    obtain ⟨apl1, cf⟩ := r
    rw [process_eq_some now hres]
    apply evictSweep_nodup
    unfold pathsNodup
    simp only
    rw [updateFile_map_filename]
    exact resolveOrCreate_nodup hres hn

theorem process_hintIsTail {apl : AlertPcapLogData} {flow : Flow} {p : Packet} {env : FsEnv}
    {now : Int} (hinv : hintIsTail apl) :
    hintIsTail (AlertPcapLogProcess apl flow p env now).apl := by
  cases hres : resolveOrCreate apl (flowFilename apl.directory flow) p env with
  | none => rw [process_eq_none now hres]; exact hinv
  | some r =>
    obtain ⟨apl1, cf⟩ := r
    rw [process_eq_some now hres]
    apply evictSweep_hintIsTail
    obtain ⟨hcur, hlast⟩ := resolveOrCreate_tail hinv hres
    unfold hintIsTail
    simp only
    right
    rw [updateFile_getLast (procFile cf flow p now) hlast rfl]

theorem initCtx_base {conf : Option ConfNode} {log_dir : String} {apl : AlertPcapLogData}
    (h : AlertPcapLogInitCtx conf log_dir = some apl) :
    apl.current_file = none ∧ apl.pcap_file_count = 0 ∧ apl.pcap_files = [] := by
  unfold AlertPcapLogInitCtx at h
  cases conf with
  | none =>
    obtain rfl := Option.some.inj h
    exact ⟨rfl, rfl, rfl⟩
  | some c =>
    simp only at h
    cases hraw : c.timeout_raw with
    | none =>
      simp only [hraw] at h
      obtain rfl := Option.some.inj h.symm
      exact ⟨rfl, rfl, rfl⟩
    | some vo =>
      cases vo with
      | none => simp [hraw] at h
      | some v =>
        simp only [hraw] at h
        by_cases hv : v < 1
        · rw [if_pos hv] at h; exact absurd h (by simp)
        · rw [if_neg hv] at h
          obtain rfl := Option.some.inj h.symm
          exact ⟨rfl, rfl, rfl⟩

theorem processSeq_nodup : ∀ (steps : List (Flow × Packet × FsEnv × Int))
    (apl : AlertPcapLogData), pathsNodup apl → pathsNodup (processSeq apl steps)
  | [], _, h => h
  | (_, _, _, _) :: rest, _, h => processSeq_nodup rest _ (process_nodup h)

theorem processSeq_countEq : ∀ (steps : List (Flow × Packet × FsEnv × Int))
    (apl : AlertPcapLogData), countEq apl → countEq (processSeq apl steps)
  | [], _, h => h
  | (_, _, _, _) :: rest, _, h => processSeq_countEq rest _ (process_countEq h)

theorem processSeq_hintIsTail : ∀ (steps : List (Flow × Packet × FsEnv × Int))
    (apl : AlertPcapLogData), hintIsTail apl → hintIsTail (processSeq apl steps)
  | [], _, h => h
  | (_, _, _, _) :: rest, _, h => processSeq_hintIsTail rest _ (process_hintIsTail h)

theorem deInitLoop_complete : ∀ fs : List AlertPcapFile, deInitLoop fs.length fs = (0, [])
  | [] => rfl
  | _ :: fs => deInitLoop_complete fs

/-! ### The claims -/

/-- Claim C3: on each evict_idle sweep the cache is walked from the
oldest-used head; the removed-and-closed entries are exactly the maximal
head run of entries with now - last_active at or beyond the timeout, the
remaining list is everything from the first fresh entry on (the walk stops
there), and an entry whose idle time is below the threshold is never
removed by the sweep. -/
theorem c3_evict_idle_threshold (t : Nat) (now : Int) (fs : List AlertPcapFile) :
    (evictLoop t now fs).2 = fs.takeWhile (fun f => decide ((t : Int) ≤ now - f.updated)) ∧
    (evictLoop t now fs).1 = fs.dropWhile (fun f => decide ((t : Int) ≤ now - f.updated)) ∧
    ∀ f ∈ fs, now - f.updated < (t : Int) → f ∈ (evictLoop t now fs).1 := by
  induction fs with
  | nil =>
    refine ⟨rfl, rfl, ?_⟩
    intro f hf
    exact absurd hf (List.not_mem_nil f)
  | cons g gs ih =>
    by_cases hfr : now - g.updated < (t : Int)
    · have hp : decide ((t : Int) ≤ now - g.updated) = false := by
        simp [not_le.mpr hfr]
      refine ⟨?_, ?_, ?_⟩
      · simp [evictLoop, hfr, List.takeWhile_cons, hp]
      · simp [evictLoop, hfr, List.dropWhile_cons, hp]
      · intro f hf hfresh
        simp only [evictLoop, if_pos hfr]
        exact hf
    · have hp : decide ((t : Int) ≤ now - g.updated) = true := by
        simp [not_lt.mp hfr]
      refine ⟨?_, ?_, ?_⟩
      · simp [evictLoop, if_neg hfr, List.takeWhile_cons, hp, ih.1]
      · simp [evictLoop, if_neg hfr, List.dropWhile_cons, hp, ih.2.1]
      · intro f hf hfresh
        rcases List.mem_cons.mp hf with rfl | hf'
        · exact absurd hfresh hfr
        · simp only [evictLoop, if_neg hfr]
          exact ih.2.2 f hf' hfresh

/-- Witness for c3_evict_idle_threshold at a concrete two-entry cache: the
fresh entry behind an idle head survives the sweep. -/
theorem c3_evict_idle_threshold_witness :
    (⟨"B", 1, 1, [], 900⟩ : AlertPcapFile) ∈
      (evictLoop 300 1000 [⟨"A", 1, 0, [], 0⟩, ⟨"B", 1, 1, [], 900⟩]).1 :=
  (c3_evict_idle_threshold 300 1000 [⟨"A", 1, 0, [], 0⟩, ⟨"B", 1, 1, [], 900⟩]).2.2
    ⟨"B", 1, 1, [], 900⟩ (by decide) (by decide)

/-- Claim C4 counterexample: with timeout 300, an idle entry A at the head
and a fresh hinted entry B at the tail, the sweep at time 1000 removes
only A, keeps B, and still nulls current_file — the hint is invalidated
although the hinted entry was not among the evicted ones. -/
theorem c4_counterexample :
    (evictSweep
        ⟨"/d", 300, some ⟨"B", 1, 1, [], 900⟩, 2,
         [⟨"A", 1, 0, [], 0⟩, ⟨"B", 1, 1, [], 900⟩], 2⟩ 1000).current_file = none ∧
    (⟨"B", 1, 1, [], 900⟩ : AlertPcapFile) ∈
      (evictSweep
        ⟨"/d", 300, some ⟨"B", 1, 1, [], 900⟩, 2,
         [⟨"A", 1, 0, [], 0⟩, ⟨"B", 1, 1, [], 900⟩], 2⟩ 1000).pcap_files := by
  decide

/-- Claim C4 as amended: a sweep that evicts no entry leaves current_file
unchanged; a sweep that evicts at least one entry sets current_file to
null, whether or not the hinted entry is among the evicted ones. -/
theorem c4_evict_hint_invalidation (apl : AlertPcapLogData) (now : Int) :
    ((evictSweep apl now).pcap_files.length = apl.pcap_files.length →
       (evictSweep apl now).current_file = apl.current_file) ∧
    ((evictSweep apl now).pcap_files.length < apl.pcap_files.length →
       (evictSweep apl now).current_file = none) := by
  have happ := evictLoop_append apl.timeout now apl.pcap_files
  have hlen : (evictLoop apl.timeout now apl.pcap_files).2.length +
      (evictLoop apl.timeout now apl.pcap_files).1.length = apl.pcap_files.length := by
    rw [← List.length_append, happ]
  constructor
  · intro hl
    unfold evictSweep at hl ⊢
    simp only at hl ⊢
    have h2 : (evictLoop apl.timeout now apl.pcap_files).2 = [] :=
      List.eq_nil_of_length_eq_zero (by omega)
    simp [h2]
  · intro hl
    unfold evictSweep at hl ⊢
    simp only at hl ⊢
    cases hc : (evictLoop apl.timeout now apl.pcap_files).2 with
    | nil => rw [hc] at hlen; simp at hlen; omega
    | cons a l => simp [hc]

/-- Witness for c4_evict_hint_invalidation: a sweep evicting nothing keeps
the hint, and a sweep evicting the idle non-hinted head nulls it. -/
theorem c4_evict_hint_invalidation_witness :
    (evictSweep ⟨"/d", 300, some ⟨"B", 1, 1, [], 900⟩, 1, [⟨"B", 1, 1, [], 900⟩], 2⟩
        1000).current_file =
      (⟨"/d", 300, some ⟨"B", 1, 1, [], 900⟩, 1, [⟨"B", 1, 1, [], 900⟩], 2⟩ :
        AlertPcapLogData).current_file ∧
    (evictSweep
        ⟨"/e", 300, some ⟨"D", 1, 1, [], 900⟩, 2,
         [⟨"C", 1, 0, [], 0⟩, ⟨"D", 1, 1, [], 900⟩], 2⟩ 1000).current_file = none :=
  ⟨(c4_evict_hint_invalidation
      ⟨"/d", 300, some ⟨"B", 1, 1, [], 900⟩, 1, [⟨"B", 1, 1, [], 900⟩], 2⟩ 1000).1 (by decide),
   (c4_evict_hint_invalidation
      ⟨"/e", 300, some ⟨"D", 1, 1, [], 900⟩, 2,
       [⟨"C", 1, 0, [], 0⟩, ⟨"D", 1, 1, [], 900⟩], 2⟩ 1000).2 (by decide)⟩

/-- Claim C8 (evaluating the code at the failing input): the configured
directory "/var/log/suricata-alert" is absolute, yet the initialized root
directory is the empty string — line 396 passes strlen of the just-zeroed
buffer (0) as the snprintf bound, so nothing is copied.  A relative
configured directory is joined with the log root as the claim states. -/
theorem c8_absolute_directory_dropped :
    PathIsAbsolute "/var/log/suricata-alert" = true ∧
    (AlertPcapLogInitCtx (some ⟨some "/var/log/suricata-alert", none⟩) "/logs").map
      (fun a => a.directory) = some "" ∧
    (AlertPcapLogInitCtx (some ⟨some "suricata-alert", none⟩) "/logs").map
      (fun a => a.directory) = some "/logs/suricata-alert" := by
  decide

/-- Claim C2: after resolve_or_create returns a CaptureFile for a path —
through the hint fast path, a scan hit with promotion, or creation — that
file is the tail (most-recently-used) entry of the cache; and re-resolving
the same path before any other access returns the very same state and
file, for every environment, so the same writer handle is reused and
nothing is reopened. -/
theorem c2_resolve_mru (apl : AlertPcapLogData) (fn : String) (p : Packet) (env : FsEnv)
    (apl1 : AlertPcapLogData) (cf : AlertPcapFile)
    (hinv : hintIsTail apl)
    (h : resolveOrCreate apl fn p env = some (apl1, cf)) :
    apl1.pcap_files.getLast? = some cf ∧
    cf.filename = fn ∧
    ∀ (p' : Packet) (env' : FsEnv), resolveOrCreate apl1 fn p' env' = some (apl1, cf) := by
  obtain ⟨hcur, hlast⟩ := resolveOrCreate_tail hinv h
  have hname : cf.filename = fn := by
    rcases resolveOrCreate_cases h with ⟨-, -, hn⟩ | ⟨fs', hs, -⟩ | ⟨-, hnew, -⟩
    · exact hn
    · exact (scanPromote_eq_some hs).1
    · rw [AlertPcapFileNew_eq_some hnew]
  refine ⟨hlast, hname, ?_⟩
  intro p' env'
  unfold resolveOrCreate lookupHit
  simp only [hcur, if_pos hname]

/-- Witness for c2_resolve_mru: resolving a fresh path in an empty cache
creates the file at the tail, and an immediate second resolve of the same
path returns the same state and writer even under a failing file
system. -/
theorem c2_resolve_mru_witness :
    ([⟨"/d/F", 1, 0, [], 0⟩] : List AlertPcapFile).getLast? = some ⟨"/d/F", 1, 0, [], 0⟩ ∧
    (⟨"/d/F", 1, 0, [], 0⟩ : AlertPcapFile).filename = "/d/F" ∧
    resolveOrCreate ⟨"/d", 300, some ⟨"/d/F", 1, 0, [], 0⟩, 1, [⟨"/d/F", 1, 0, [], 0⟩], 1⟩
        "/d/F" ⟨2, 9, 9, 9⟩ .mkdirFail =
      some (⟨"/d", 300, some ⟨"/d/F", 1, 0, [], 0⟩, 1, [⟨"/d/F", 1, 0, [], 0⟩], 1⟩,
        ⟨"/d/F", 1, 0, [], 0⟩) := by
  have hmain := c2_resolve_mru ⟨"/d", 300, none, 0, [], 0⟩ "/d/F" ⟨1, 5, 2, 3⟩ .ok
    ⟨"/d", 300, some ⟨"/d/F", 1, 0, [], 0⟩, 1, [⟨"/d/F", 1, 0, [], 0⟩], 1⟩
    ⟨"/d/F", 1, 0, [], 0⟩ (by decide) (by decide)
  exact ⟨hmain.1, hmain.2.1, hmain.2.2 ⟨2, 9, 9, 9⟩ .mkdirFail⟩

/-- Claim C5: when no cache entry matches the packet's target path and
creating the CaptureFile fails at any stage, process returns
TM_ECODE_FAILED and the state is exactly as before — pcap_file_count is
not incremented, no entry (whole or part) enters pcap_files, the hint and
the flow buffer are untouched.  In this sequential embedding the return
itself is the release of both locks (lines 277-280). -/
theorem c5_creation_failure_no_mutation (apl : AlertPcapLogData) (flow : Flow) (p : Packet)
    (env : FsEnv) (now : Int)
    (hinv : hintIsTail apl)
    (hmiss : ∀ f ∈ apl.pcap_files, f.filename ≠ flowFilename apl.directory flow)
    (hfail : AlertPcapFileNew (flowFilename apl.directory flow) p env apl.next_writer = none) :
    AlertPcapLogProcess apl flow p env now = ⟨.failed, apl, flow, none⟩ := by
  apply process_eq_none
  unfold resolveOrCreate
  simp only [lookupHit_eq_none hinv hmiss, hfail]

/-- Witness for c5_creation_failure_no_mutation: a directory-creation
failure on an empty cache leaves the state untouched and fails the
call. -/
theorem c5_creation_failure_no_mutation_witness :
    AlertPcapLogProcess ⟨"/d", 300, none, 0, [], 0⟩
        ⟨"2020-01-02T03:04:05", "1.1.1.1", "2.2.2.2", 10, 20, 6, some "TCP",
         [⟨100, 4, 4, 11⟩], 1⟩
        ⟨1, 200, 9, 13⟩ .mkdirFail 1000 =
      ⟨.failed, ⟨"/d", 300, none, 0, [], 0⟩,
       ⟨"2020-01-02T03:04:05", "1.1.1.1", "2.2.2.2", 10, 20, 6, some "TCP",
        [⟨100, 4, 4, 11⟩], 1⟩, none⟩ :=
  c5_creation_failure_no_mutation ⟨"/d", 300, none, 0, [], 0⟩
    ⟨"2020-01-02T03:04:05", "1.1.1.1", "2.2.2.2", 10, 20, 6, some "TCP", [⟨100, 4, 4, 11⟩], 1⟩
    ⟨1, 200, 9, 13⟩ .mkdirFail 1000 (by decide) (by decide) (by decide)

/-- Claim C10: the active hint is null or exactly the tail entry at every
operation boundary: initialization establishes it, a whole process call
preserves it, and on a hint hit the lookup returns the hinted entry with
the state unmodified — no promotion is needed since the entry already is
the tail. -/
theorem c10_hint_null_or_tail :
    (∀ (conf : Option ConfNode) (log_dir : String) (apl : AlertPcapLogData),
       AlertPcapLogInitCtx conf log_dir = some apl → hintIsTail apl) ∧
    (∀ (apl : AlertPcapLogData) (flow : Flow) (p : Packet) (env : FsEnv) (now : Int),
       hintIsTail apl → hintIsTail (AlertPcapLogProcess apl flow p env now).apl) ∧
    (∀ (apl : AlertPcapLogData) (cf : AlertPcapFile) (fn : String) (p : Packet) (env : FsEnv),
       hintIsTail apl → apl.current_file = some cf → cf.filename = fn →
       resolveOrCreate apl fn p env = some (apl, cf) ∧
       apl.pcap_files.getLast? = some cf) := by
  refine ⟨?_, ?_, ?_⟩
  · intro conf log_dir apl h
    obtain ⟨hcur, -, -⟩ := initCtx_base h
    exact Or.inl hcur
  · intro apl flow p env now hinv
    exact process_hintIsTail hinv
  · intro apl cf fn p env hinv hcur hfn
    refine ⟨?_, ?_⟩
    · unfold resolveOrCreate lookupHit
      simp only [hcur, if_pos hfn]
    · rcases hinv with h0 | h0
      · rw [hcur] at h0; exact absurd h0 (by simp)
      · rw [← h0, hcur]

/-- Witness for c10_hint_null_or_tail: the three parts at concrete
states. -/
theorem c10_hint_null_or_tail_witness :
    hintIsTail ⟨"/logs/alert", 300, none, 0, [], 0⟩ ∧
    hintIsTail (AlertPcapLogProcess ⟨"/d", 300, none, 0, [], 0⟩
      ⟨"2020-01-02T03:04:05", "1.1.1.1", "2.2.2.2", 10, 20, 6, some "TCP", [], 0⟩
      ⟨1, 200, 9, 13⟩ .ok 1000).apl ∧
    resolveOrCreate ⟨"/d", 300, some ⟨"/d/F", 1, 0, [], 0⟩, 1, [⟨"/d/F", 1, 0, [], 0⟩], 1⟩
        "/d/F" ⟨1, 5, 2, 3⟩ .ok =
      some (⟨"/d", 300, some ⟨"/d/F", 1, 0, [], 0⟩, 1, [⟨"/d/F", 1, 0, [], 0⟩], 1⟩,
        ⟨"/d/F", 1, 0, [], 0⟩) :=
  ⟨c10_hint_null_or_tail.1 (some ⟨none, none⟩) "/logs" ⟨"/logs/alert", 300, none, 0, [], 0⟩
     (by decide),
   c10_hint_null_or_tail.2.1 ⟨"/d", 300, none, 0, [], 0⟩
     ⟨"2020-01-02T03:04:05", "1.1.1.1", "2.2.2.2", 10, 20, 6, some "TCP", [], 0⟩
     ⟨1, 200, 9, 13⟩ .ok 1000 (by decide),
   (c10_hint_null_or_tail.2.2 ⟨"/d", 300, some ⟨"/d/F", 1, 0, [], 0⟩, 1, [⟨"/d/F", 1, 0, [], 0⟩], 1⟩
     ⟨"/d/F", 1, 0, [], 0⟩ "/d/F" ⟨1, 5, 2, 3⟩ .ok (by decide) (by decide) (by decide)).1⟩

/-- Claim C1 counterexample: the file for the flow's path is already open
(it is the single cache entry and the hint, holding one prior record), so
this call resolves it through the fast path — the environment is a failing
one, so no CaptureFile could have been newly created — and yet the
buffered pre-alert packet (100, 4, 4, 11) is drained into the writer ahead
of the triggering packet: the drain is not tied to a newly resolved
CaptureFile but runs on every processed packet, and next_writer stays 1
(nothing was created or reopened). -/
theorem c1_counterexample :
    (AlertPcapLogProcess
        ⟨"/d", 300,
         some ⟨"/d/2020-01-02/1.1.1.1-2.2.2.2/1.1.1.1:10-2.2.2.2:20-2020-01-02T03:04:05.TCP.pcap",
               1, 0, [⟨50, 2, 2, 9⟩], 500⟩, 1,
         [⟨"/d/2020-01-02/1.1.1.1-2.2.2.2/1.1.1.1:10-2.2.2.2:20-2020-01-02T03:04:05.TCP.pcap",
           1, 0, [⟨50, 2, 2, 9⟩], 500⟩], 1⟩
        ⟨"2020-01-02T03:04:05", "1.1.1.1", "2.2.2.2", 10, 20, 6, some "TCP",
         [⟨100, 4, 4, 11⟩], 1⟩
        ⟨1, 200, 9, 13⟩ .mallocFail 1000).written =
      some ⟨"/d/2020-01-02/1.1.1.1-2.2.2.2/1.1.1.1:10-2.2.2.2:20-2020-01-02T03:04:05.TCP.pcap",
            1, 0, [⟨50, 2, 2, 9⟩, ⟨100, 4, 4, 11⟩, ⟨200, 9, 9, 13⟩], 1000⟩ ∧
    (AlertPcapLogProcess
        ⟨"/d", 300,
         some ⟨"/d/2020-01-02/1.1.1.1-2.2.2.2/1.1.1.1:10-2.2.2.2:20-2020-01-02T03:04:05.TCP.pcap",
               1, 0, [⟨50, 2, 2, 9⟩], 500⟩, 1,
         [⟨"/d/2020-01-02/1.1.1.1-2.2.2.2/1.1.1.1:10-2.2.2.2:20-2020-01-02T03:04:05.TCP.pcap",
           1, 0, [⟨50, 2, 2, 9⟩], 500⟩], 1⟩
        ⟨"2020-01-02T03:04:05", "1.1.1.1", "2.2.2.2", 10, 20, 6, some "TCP",
         [⟨100, 4, 4, 11⟩], 1⟩
        ⟨1, 200, 9, 13⟩ .mallocFail 1000).apl.next_writer = 1 := by
  constructor
  · decide
  · decide

/-- Claim C1 as amended: on every successful process call — whether the
CaptureFile was newly created or reused — all N packets buffered on the
flow at call time are appended to the writer exactly once, in original
FIFO order, ahead of the triggering packet, and the flow buffer is left
empty.  In particular the first resolved CaptureFile (empty writer)
receives exactly the N buffered packets ahead of the trigger; a second
packet to the same open file appends no buffered records only because the
first call emptied the buffer. -/
theorem c1_drain_on_every_packet (apl : AlertPcapLogData) (flow : Flow) (p : Packet)
    (env : FsEnv) (now : Int) (apl1 : AlertPcapLogData) (cf : AlertPcapFile)
    (hcnt : flow.tm_pkt_cnt = flow.tm_pkts.length)
    (h : resolveOrCreate apl (flowFilename apl.directory flow) p env = some (apl1, cf)) :
    (AlertPcapLogProcess apl flow p env now).flow.tm_pkts = [] ∧
    (AlertPcapLogProcess apl flow p env now).flow.tm_pkt_cnt = 0 ∧
    (AlertPcapLogProcess apl flow p env now).written =
      some { cf with records := cf.records ++ flow.tm_pkts.map TMPacket.toRecord ++ [p.toRecord]
                     updated := now } := by
  rw [process_eq_some now h]
  simp [hcnt, drainLoop_full, procFile]

/-- Witness for c1_drain_on_every_packet: the first packet of an alerted
flow with two buffered packets creates the file and writes the two
buffered records ahead of the trigger, leaving the buffer empty. -/
theorem c1_drain_on_every_packet_witness :
    (AlertPcapLogProcess ⟨"/d", 300, none, 0, [], 0⟩
        ⟨"2020-01-02T03:04:05", "1.1.1.1", "2.2.2.2", 10, 20, 6, some "TCP",
         [⟨100, 4, 4, 11⟩, ⟨101, 5, 5, 12⟩], 2⟩
        ⟨1, 200, 9, 13⟩ .ok 1000).flow.tm_pkts = [] ∧
    (AlertPcapLogProcess ⟨"/d", 300, none, 0, [], 0⟩
        ⟨"2020-01-02T03:04:05", "1.1.1.1", "2.2.2.2", 10, 20, 6, some "TCP",
         [⟨100, 4, 4, 11⟩, ⟨101, 5, 5, 12⟩], 2⟩
        ⟨1, 200, 9, 13⟩ .ok 1000).flow.tm_pkt_cnt = 0 ∧
    (AlertPcapLogProcess ⟨"/d", 300, none, 0, [], 0⟩
        ⟨"2020-01-02T03:04:05", "1.1.1.1", "2.2.2.2", 10, 20, 6, some "TCP",
         [⟨100, 4, 4, 11⟩, ⟨101, 5, 5, 12⟩], 2⟩
        ⟨1, 200, 9, 13⟩ .ok 1000).written =
      some ⟨"/d/2020-01-02/1.1.1.1-2.2.2.2/1.1.1.1:10-2.2.2.2:20-2020-01-02T03:04:05.TCP.pcap",
            1, 0, [⟨100, 4, 4, 11⟩, ⟨101, 5, 5, 12⟩, ⟨200, 9, 9, 13⟩], 1000⟩ :=
  c1_drain_on_every_packet ⟨"/d", 300, none, 0, [], 0⟩
    ⟨"2020-01-02T03:04:05", "1.1.1.1", "2.2.2.2", 10, 20, 6, some "TCP",
     [⟨100, 4, 4, 11⟩, ⟨101, 5, 5, 12⟩], 2⟩
    ⟨1, 200, 9, 13⟩ .ok 1000
    ⟨"/d", 300,
     some ⟨"/d/2020-01-02/1.1.1.1-2.2.2.2/1.1.1.1:10-2.2.2.2:20-2020-01-02T03:04:05.TCP.pcap",
           1, 0, [], 0⟩, 1,
     [⟨"/d/2020-01-02/1.1.1.1-2.2.2.2/1.1.1.1:10-2.2.2.2:20-2020-01-02T03:04:05.TCP.pcap",
       1, 0, [], 0⟩], 1⟩
    ⟨"/d/2020-01-02/1.1.1.1-2.2.2.2/1.1.1.1:10-2.2.2.2:20-2020-01-02T03:04:05.TCP.pcap",
     1, 0, [], 0⟩
    (by decide) (by decide)

/-- Claim C6: starting from an initialized context, no sequence of
processed packets ever leaves two cache entries with the same path:
resolve_or_create creates an entry only after the scan found no match. -/
theorem c6_path_uniqueness (conf : Option ConfNode) (log_dir : String)
    (apl : AlertPcapLogData) (steps : List (Flow × Packet × FsEnv × Int))
    (h : AlertPcapLogInitCtx conf log_dir = some apl) :
    ((processSeq apl steps).pcap_files.map (fun f => f.filename)).Nodup := by
  have h0 : pathsNodup apl := by
    obtain ⟨-, -, hfiles⟩ := initCtx_base h
    unfold pathsNodup
    rw [hfiles]
    exact List.nodup_nil
  exact processSeq_nodup steps apl h0

/-- Witness for c6_path_uniqueness: two packets of two distinct flows
followed by a repeat of the first leave pairwise distinct paths. -/
theorem c6_path_uniqueness_witness :
    ((processSeq ⟨"/logs/alert", 300, none, 0, [], 0⟩
        [(⟨"2020-01-02T03:04:05", "1.1.1.1", "2.2.2.2", 10, 20, 6, some "TCP", [], 0⟩,
          ⟨1, 200, 9, 13⟩, .ok, 0),
         (⟨"2020-01-02T03:04:06", "1.1.1.1", "3.3.3.3", 11, 21, 6, some "TCP", [], 0⟩,
          ⟨1, 201, 9, 14⟩, .ok, 1),
         (⟨"2020-01-02T03:04:05", "1.1.1.1", "2.2.2.2", 10, 20, 6, some "TCP", [], 0⟩,
          ⟨1, 202, 9, 15⟩, .ok, 2)]).pcap_files.map (fun f => f.filename)).Nodup :=
  c6_path_uniqueness (some ⟨none, none⟩) "/logs" ⟨"/logs/alert", 300, none, 0, [], 0⟩
    [(⟨"2020-01-02T03:04:05", "1.1.1.1", "2.2.2.2", 10, 20, 6, some "TCP", [], 0⟩,
      ⟨1, 200, 9, 13⟩, .ok, 0),
     (⟨"2020-01-02T03:04:06", "1.1.1.1", "3.3.3.3", 11, 21, 6, some "TCP", [], 0⟩,
      ⟨1, 201, 9, 14⟩, .ok, 1),
     (⟨"2020-01-02T03:04:05", "1.1.1.1", "2.2.2.2", 10, 20, 6, some "TCP", [], 0⟩,
      ⟨1, 202, 9, 15⟩, .ok, 2)]
    (by decide)

/-- Claim C7: pcap_file_count equals the number of cache entries after
every operation — initialization establishes it and any packet sequence
keeps it, any single process call preserves it, and a teardown from a
consistent state removes exactly count entries, ending at zero with an
empty list. -/
theorem c7_count_matches_entries :
    (∀ (conf : Option ConfNode) (log_dir : String) (apl : AlertPcapLogData)
       (steps : List (Flow × Packet × FsEnv × Int)),
       AlertPcapLogInitCtx conf log_dir = some apl →
       (processSeq apl steps).pcap_file_count = (processSeq apl steps).pcap_files.length) ∧
    (∀ (apl : AlertPcapLogData) (flow : Flow) (p : Packet) (env : FsEnv) (now : Int),
       apl.pcap_file_count = apl.pcap_files.length →
       (AlertPcapLogProcess apl flow p env now).apl.pcap_file_count =
         (AlertPcapLogProcess apl flow p env now).apl.pcap_files.length) ∧
    (∀ apl : AlertPcapLogData, apl.pcap_file_count = apl.pcap_files.length →
       AlertPcapLogDeInitCtx apl = (0, [])) := by
  refine ⟨?_, ?_, ?_⟩
  · intro conf log_dir apl steps h
    have h0 : countEq apl := by
      obtain ⟨-, hcnt, hfiles⟩ := initCtx_base h
      unfold countEq
      rw [hcnt, hfiles]
      rfl
    exact processSeq_countEq steps apl h0
  · intro apl flow p env now hc
    exact process_countEq hc
  · intro apl hc
    unfold AlertPcapLogDeInitCtx
    rw [hc]
    exact deInitLoop_complete apl.pcap_files

/-- Witness for c7_count_matches_entries: the three parts at concrete
states. -/
theorem c7_count_matches_entries_witness :
    (processSeq ⟨"/logs/alert", 300, none, 0, [], 0⟩
        [(⟨"2020-01-02T03:04:05", "1.1.1.1", "2.2.2.2", 10, 20, 6, some "TCP", [], 0⟩,
          ⟨1, 200, 9, 13⟩, .ok, 0)]).pcap_file_count =
      (processSeq ⟨"/logs/alert", 300, none, 0, [], 0⟩
        [(⟨"2020-01-02T03:04:05", "1.1.1.1", "2.2.2.2", 10, 20, 6, some "TCP", [], 0⟩,
          ⟨1, 200, 9, 13⟩, .ok, 0)]).pcap_files.length ∧
    (AlertPcapLogProcess ⟨"/d", 300, some ⟨"/d/F", 1, 0, [], 0⟩, 1, [⟨"/d/F", 1, 0, [], 0⟩], 1⟩
        ⟨"2020-01-02T03:04:05", "1.1.1.1", "2.2.2.2", 10, 20, 6, some "TCP", [], 0⟩
        ⟨1, 200, 9, 13⟩ .ok 1000).apl.pcap_file_count =
      (AlertPcapLogProcess ⟨"/d", 300, some ⟨"/d/F", 1, 0, [], 0⟩, 1, [⟨"/d/F", 1, 0, [], 0⟩], 1⟩
        ⟨"2020-01-02T03:04:05", "1.1.1.1", "2.2.2.2", 10, 20, 6, some "TCP", [], 0⟩
        ⟨1, 200, 9, 13⟩ .ok 1000).apl.pcap_files.length ∧
    AlertPcapLogDeInitCtx ⟨"/d", 300, none, 2, [⟨"/d/F", 1, 0, [], 0⟩, ⟨"/d/G", 1, 1, [], 5⟩], 2⟩ =
      (0, []) :=
  ⟨c7_count_matches_entries.1 (some ⟨none, none⟩) "/logs" ⟨"/logs/alert", 300, none, 0, [], 0⟩
     [(⟨"2020-01-02T03:04:05", "1.1.1.1", "2.2.2.2", 10, 20, 6, some "TCP", [], 0⟩,
       ⟨1, 200, 9, 13⟩, .ok, 0)] (by decide),
   c7_count_matches_entries.2.1
     ⟨"/d", 300, some ⟨"/d/F", 1, 0, [], 0⟩, 1, [⟨"/d/F", 1, 0, [], 0⟩], 1⟩
     ⟨"2020-01-02T03:04:05", "1.1.1.1", "2.2.2.2", 10, 20, 6, some "TCP", [], 0⟩
     ⟨1, 200, 9, 13⟩ .ok 1000 (by decide),
   c7_count_matches_entries.2.2
     ⟨"/d", 300, none, 2, [⟨"/d/F", 1, 0, [], 0⟩, ⟨"/d/G", 1, 1, [], 5⟩], 2⟩ (by decide)⟩

end AlertPcap
